import Mathlib

/-!
Verification of the BlockShare storage layer and sharing routes.

The development shallowly embeds the in-memory storage implementation
(`MemStorage` in the server storage module) and the Express route handlers
that the sharing/stats claims are about.  JS `Map<number, V>` objects are
modelled as association lists `List (Nat × V)` with insertion-order
semantics (`set` replaces in place or appends, `delete` removes by key,
`Array.from(map.values())` is `map Prod.snd`).  Timestamps (`new Date()`,
`Date.now()`) are modelled as `Nat` milliseconds passed explicitly;
`crypto.randomBytes(16)` is modelled as an explicit list of byte values
handed to the handler.
-/

namespace BlockShare

/-- JS `Map.set`: replace the binding in place when the key is present,
otherwise append at the end (insertion order). -/
def mapSet {α : Type} (m : List (Nat × α)) (k : Nat) (v : α) : List (Nat × α) :=
  if m.any (fun p => p.1 = k) then
    m.map (fun p => if p.1 = k then (k, v) else p)
  else
    m ++ [(k, v)]

/-- JS `Map.get`: first (unique) binding for the key. -/
def mapGet {α : Type} (m : List (Nat × α)) (k : Nat) : Option α :=
  (m.find? (fun p => p.1 = k)).map Prod.snd

/-- JS `Map.delete`: remove the binding for the key. -/
def mapDelete {α : Type} (m : List (Nat × α)) (k : Nat) : List (Nat × α) :=
  m.filter (fun p => p.1 ≠ k)

/-- The values view `Array.from(map.values())`. -/
def mapValues {α : Type} (m : List (Nat × α)) : List α :=
  m.map Prod.snd

/-- Row of the `users` table. -/
structure User where
  id : Nat
  username : String
  password : String
  email : String
  createdAt : Nat
deriving DecidableEq

/-- Row of the `files` table, with the display-only `owner` username the
storage layer bolts on at read time. -/
structure File where
  id : Nat
  name : String
  size : Int
  type : String
  cid : String
  encryptionKey : String
  ownerId : Nat
  uploadedAt : Nat
  status : String
  owner : String
deriving DecidableEq

/-- Row of the `file_shares` table (a grant). -/
structure FileShare where
  id : Nat
  fileId : Nat
  userId : Nat
  permission : String
  createdAt : Nat
deriving DecidableEq

/-- Row of the `share_links` table. -/
structure ShareLink where
  id : Nat
  fileId : Nat
  linkToken : String
  requiresPassword : Bool
  password : Option String
  expiresAt : Nat
  createdAt : Nat
deriving DecidableEq

/-- Row of the `transactions` audit table (`metadata` kept as its JSON text). -/
structure Transaction where
  id : Nat
  txId : String
  cid : String
  fileId : Option Nat
  type : String
  status : String
  timestamp : Nat
  metadata : String
deriving DecidableEq

/-- Row of the `stats` table. -/
structure Stat where
  id : Nat
  userId : Nat
  filesUploaded : Int
  filesShared : Int
  storageUsed : Int
  downloads : Int
  lastUpdated : Nat
deriving DecidableEq

/-- The `MemStorage` state: six maps and the per-table id counters.
`statsMap` is keyed by user id; every other map is keyed by the row id. -/
structure MemStorage where
  usersMap : List (Nat × User)
  filesMap : List (Nat × File)
  fileSharesMap : List (Nat × FileShare)
  shareLinksMap : List (Nat × ShareLink)
  transactionsMap : List (Nat × Transaction)
  statsMap : List (Nat × Stat)
  currentIdUsers : Nat
  currentIdFiles : Nat
  currentIdFileShares : Nat
  currentIdShareLinks : Nat
  currentIdTransactions : Nat
  currentIdStats : Nat
deriving DecidableEq

/-- Payload of `createFileShare` (insert schema: no id / createdAt). -/
structure InsertFileShare where
  fileId : Nat
  userId : Nat
  permission : String
deriving DecidableEq

/-- Payload of `createShareLink`. -/
structure InsertShareLink where
  fileId : Nat
  linkToken : String
  requiresPassword : Bool
  password : Option String
  expiresAt : Nat
deriving DecidableEq

/-- Payload of `logTransaction`. -/
structure InsertTransaction where
  txId : String
  cid : String
  fileId : Option Nat
  type : String
  status : String
  metadata : String
deriving DecidableEq

/-- The optional signed deltas accepted by `updateUserStats`. -/
structure StatUpdates where
  filesUploaded : Option Int := none
  filesShared : Option Int := none
  storageUsed : Option Int := none
  downloads : Option Int := none
deriving DecidableEq

/-- Storage operation `MemStorage.getUser`. -/
def getUser (s : MemStorage) (id : Nat) : Option User :=
  mapGet s.usersMap id

/-- JS `toLowerCase`, modelled characterwise (ASCII case folding). -/
def lowerString (str : String) : String :=
  String.mk (str.toList.map Char.toLower)

/-- Storage operation `MemStorage.getUserByEmail` (case-insensitive match). -/
def getUserByEmail (s : MemStorage) (email : String) : Option User :=
  (mapValues s.usersMap).find?
    (fun user => lowerString user.email = lowerString email)

/-- Storage operation `MemStorage.getFile`: look the row up and bolt on the owner username. -/
def getFile (s : MemStorage) (id : Nat) : Option File :=
  match mapGet s.filesMap id with
  | none => none
  | some file =>
      some { file with
              owner := match mapGet s.usersMap file.ownerId with
                       | some u => u.username
                       | none => "Unknown" }

/-- Storage operation `MemStorage.checkFileAccess`: unknown file is `false`; the owner always
has access; otherwise access iff some share row matches (fileId, userId). -/
def checkFileAccess (s : MemStorage) (fileId userId : Nat) : Bool :=
  match mapGet s.filesMap fileId with
  | none => false
  | some file =>
      if file.ownerId = userId then true
      else (mapValues s.fileSharesMap).any
             (fun share => share.fileId = fileId && share.userId = userId)

/-- Storage operation `MemStorage.createFileShare`: fresh id from the counter, stamp
`createdAt`, store under the id. -/
def createFileShare (s : MemStorage) (d : InsertFileShare) (now : Nat) :
    FileShare × MemStorage :=
  let id := s.currentIdFileShares
  let fileShare : FileShare :=
    { id := id, fileId := d.fileId, userId := d.userId,
      permission := d.permission, createdAt := now }
  (fileShare,
    { s with fileSharesMap := mapSet s.fileSharesMap id fileShare,
             currentIdFileShares := id + 1 })

/-- Storage operation `MemStorage.createShareLink`. -/
def createShareLink (s : MemStorage) (d : InsertShareLink) (now : Nat) :
    ShareLink × MemStorage :=
  let id := s.currentIdShareLinks
  let shareLink : ShareLink :=
    { id := id, fileId := d.fileId, linkToken := d.linkToken,
      requiresPassword := d.requiresPassword, password := d.password,
      expiresAt := d.expiresAt, createdAt := now }
  (shareLink,
    { s with shareLinksMap := mapSet s.shareLinksMap id shareLink,
             currentIdShareLinks := id + 1 })

/-- Storage operation `MemStorage.getShareLink`: linear scan for a matching token; no expiry
check and no time parameter. -/
def getShareLink (s : MemStorage) (token : String) : Option ShareLink :=
  (mapValues s.shareLinksMap).find? (fun link => link.linkToken = token)

/-- Storage operation `MemStorage.logTransaction`. -/
def logTransaction (s : MemStorage) (d : InsertTransaction) (now : Nat) :
    Transaction × MemStorage :=
  let id := s.currentIdTransactions
  let t : Transaction :=
    { id := id, txId := d.txId, cid := d.cid, fileId := d.fileId,
      type := d.type, status := d.status, timestamp := now,
      metadata := d.metadata }
  (t, { s with transactionsMap := mapSet s.transactionsMap id t,
               currentIdTransactions := id + 1 })

/-- Storage operation `MemStorage.deleteFile`: delete the file row, then delete every share
and every link whose `fileId` matches, each by its own row id. -/
def deleteFile (s : MemStorage) (id : Nat) : MemStorage :=
  let filesMap2 := mapDelete s.filesMap id
  let sharesToDelete :=
    (mapValues s.fileSharesMap).filter (fun share => share.fileId = id)
  let fileSharesMap2 :=
    sharesToDelete.foldl (fun m share => mapDelete m share.id) s.fileSharesMap
  let linksToDelete :=
    (mapValues s.shareLinksMap).filter (fun link => link.fileId = id)
  let shareLinksMap2 :=
    linksToDelete.foldl (fun m link => mapDelete m link.id) s.shareLinksMap
  { s with filesMap := filesMap2,
           fileSharesMap := fileSharesMap2,
           shareLinksMap := shareLinksMap2 }

/-- Storage operation `MemStorage.createUserStats`: zeroed row for the user, keyed by user id. -/
def createUserStats (s : MemStorage) (userId now : Nat) : Stat × MemStorage :=
  let id := s.currentIdStats
  let stat : Stat :=
    { id := id, userId := userId, filesUploaded := 0, filesShared := 0,
      storageUsed := 0, downloads := 0, lastUpdated := now }
  (stat, { s with statsMap := mapSet s.statsMap userId stat,
                  currentIdStats := id + 1 })

/-- Storage operation `MemStorage.getUserStats`. -/
def getUserStats (s : MemStorage) (userId : Nat) : Option Stat :=
  mapGet s.statsMap userId

/-- Storage operation `MemStorage.updateUserStats`: fetch (or lazily create) the row, add the
deltas (`x || 0` on a possibly-absent number is `getD 0`), clamp
`filesUploaded`, `filesShared`, `storageUsed` at zero — but not
`downloads` — stamp `lastUpdated`, and store the row back. -/
def updateUserStats (s : MemStorage) (userId : Nat) (upd : StatUpdates)
    (now : Nat) : Stat × MemStorage :=
  let fetched :=
    match getUserStats s userId with
    | some st => (st, s)
    | none => createUserStats s userId now
  let stat := fetched.1
  let s1 := fetched.2
  let raw : Stat :=
    { stat with
      filesUploaded := stat.filesUploaded + (upd.filesUploaded.getD 0),
      filesShared := stat.filesShared + (upd.filesShared.getD 0),
      storageUsed := stat.storageUsed + (upd.storageUsed.getD 0),
      downloads := stat.downloads + (upd.downloads.getD 0),
      lastUpdated := now }
  let updatedStat : Stat :=
    { raw with
      filesUploaded := max 0 raw.filesUploaded,
      filesShared := max 0 raw.filesShared,
      storageUsed := max 0 raw.storageUsed }
  (updatedStat, { s1 with statsMap := mapSet s1.statsMap userId updatedStat })

/-- Outcome of the two share-grant routes (HTTP status in comments). -/
inductive ShareResult where
  | fileNotFound                 -- 404 "File not found"
  | accessDenied                 -- 403 "Access denied"
  | recipientNotFound            -- 404 recipient user not found
  | created (share : FileShare)  -- 201, the inserted FileShare
deriving DecidableEq

/-- Route `POST /api/files/share` handler: owner-only grant by recipient email.
Looks the file up, rejects non-owners, resolves the recipient by email,
inserts the grant and bumps the granter's `filesShared` by 1. -/
def shareByEmail (s : MemStorage) (requesterId fileId : Nat) (email : String)
    (permission : String) (now : Nat) : ShareResult × MemStorage :=
  match getFile s fileId with
  | none => (.fileNotFound, s)
  | some file =>
      if file.ownerId ≠ requesterId then (.accessDenied, s)
      else
        match getUserByEmail s email with
        | none => (.recipientNotFound, s)
        | some userToShare =>
            let r := createFileShare s
              { fileId := fileId, userId := userToShare.id,
                permission := permission } now
            let r2 := updateUserStats r.2 requesterId
              { filesShared := some 1 } now
            (.created r.1, r2.2)

/-- Route `POST /api/files/share-by-id` handler: same as `shareByEmail` but the
recipient is resolved by numeric user id.  (The best-effort Supabase
mirror call is external and changes no store state.) -/
def shareById (s : MemStorage) (requesterId fileId recipientId : Nat)
    (permission : String) (now : Nat) : ShareResult × MemStorage :=
  match getFile s fileId with
  | none => (.fileNotFound, s)
  | some file =>
      if file.ownerId ≠ requesterId then (.accessDenied, s)
      else
        match getUser s recipientId with
        | none => (.recipientNotFound, s)
        | some recipientUser =>
            let r := createFileShare s
              { fileId := fileId, userId := recipientUser.id,
                permission := permission } now
            let r2 := updateUserStats r.2 requesterId
              { filesShared := some 1 } now
            (.created r.1, r2.2)

/-- Outcome of `GET /api/files/:id/download`. -/
inductive DownloadResult where
  | fileNotFound       -- 404
  | accessDenied       -- 403
  | ok (encryptedData encryptionKey name type : String)  -- 200 payload
deriving DecidableEq

/-- Route `GET /api/files/:id/download` handler.  `retrieve` stands for the
external blob store (`filecoin.retrieveFile`, cid to ciphertext).  On
success it bumps the file OWNER's `downloads` stat and logs a
`retrieve` transaction. -/
def downloadFile (s : MemStorage) (retrieve : String → String)
    (requesterId fileId now : Nat) : DownloadResult × MemStorage :=
  match getFile s fileId with
  | none => (.fileNotFound, s)
  | some file =>
      if checkFileAccess s file.id requesterId = false then (.accessDenied, s)
      else
        let encryptedData := retrieve file.cid
        let r := updateUserStats s file.ownerId { downloads := some 1 } now
        let r2 := logTransaction r.2
          { txId := "tx_" ++ toString now, cid := file.cid,
            fileId := some file.id, type := "retrieve",
            status := "confirmed", metadata := "" } now
        (.ok encryptedData file.encryptionKey file.name file.type, r2.2)

/-- Lowercase hex digit of a value below 16 (Node `Buffer.toString` is
lowercase). -/
def hexDigitChar (n : Nat) : Char :=
  if n < 10 then Char.ofNat (48 + n) else Char.ofNat (87 + n)

/-- Hex encoding of a byte list: two lowercase hex chars per byte, as
`crypto.randomBytes(16).toString` with the hex encoding produces. -/
def bytesToHex (bs : List Nat) : String :=
  String.mk (bs.flatMap (fun b => [hexDigitChar (b / 16), hexDigitChar (b % 16)]))

/-- One day of milliseconds; `expiresAt.setDate(getDate() + 7)` adds seven
of these to the issuance instant. -/
def msPerDay : Nat := 86400000

/-- Outcome of `POST /api/files/share-link`. -/
inductive ShareLinkResult where
  | fileNotFound       -- 404
  | accessDenied       -- 403
  | created (link : ShareLink)  -- 201; the stored ShareLink row
deriving DecidableEq

/-- Route `POST /api/files/share-link` handler: owner-only.  `randomBytes` is the
output of the CSPRNG call `crypto.randomBytes(16)`.  The token is its hex
encoding, expiry is issuance time plus exactly 7 days (no caller knob),
and the plaintext password is stored iff `requirePassword`. -/
def createShareLinkHandler (s : MemStorage) (requesterId fileId : Nat)
    (requirePassword : Bool) (password : String) (randomBytes : List Nat)
    (now : Nat) : ShareLinkResult × MemStorage :=
  match getFile s fileId with
  | none => (.fileNotFound, s)
  | some file =>
      if file.ownerId ≠ requesterId then (.accessDenied, s)
      else
        let linkToken := bytesToHex randomBytes
        let expiresAt := now + 7 * msPerDay
        let r := createShareLink s
          { fileId := fileId, linkToken := linkToken,
            requiresPassword := requirePassword,
            password := if requirePassword then some password else none,
            expiresAt := expiresAt } now
        (.created r.1, r.2)

/-- Outcome of `GET /api/stats` (the human-readable storage string is
display formatting of `storageUsed` and is elided; the four counters are
returned raw). -/
inductive StatsResult where
  | notFound  -- 404 "Stats not found"
  | ok (filesUploaded filesShared storageUsed downloads : Int)
deriving DecidableEq

/-- Route `GET /api/stats` handler: a pure read; a missing row is a 404, never a
lazily created zero row. -/
def getStatsHandler (s : MemStorage) (userId : Nat) :
    StatsResult × MemStorage :=
  match getUserStats s userId with
  | none => (.notFound, s)
  | some st => (.ok st.filesUploaded st.filesShared st.storageUsed st.downloads, s)

/-- Iterated: `n` successive calls of `createFileShare` with the same payload. -/
def repeatCreateFileShare (s : MemStorage) (d : InsertFileShare) (now : Nat) :
    Nat → MemStorage
  | 0 => s
  | n + 1 => (createFileShare (repeatCreateFileShare s d now n) d now).2

/-- Number of grant rows for the pair (fileId, userId). -/
def grantCount (s : MemStorage) (fileId userId : Nat) : Nat :=
  ((mapValues s.fileSharesMap).filter
    (fun share => share.fileId = fileId && share.userId = userId)).length

/-- Well-formedness of the share map: every row is stored under its own id,
and keys are distinct (both hold in every reachable `MemStorage` state,
since `createFileShare` is the only writer and keys come from a counter). -/
def sharesWF (s : MemStorage) : Prop :=
  (∀ p ∈ s.fileSharesMap, p.2.id = p.1) ∧ (s.fileSharesMap.map Prod.fst).Nodup

/-- Same well-formedness for the share-link map. -/
def linksWF (s : MemStorage) : Prop :=
  (∀ p ∈ s.shareLinksMap, p.2.id = p.1) ∧ (s.shareLinksMap.map Prod.fst).Nodup

/-- The share id counter is strictly above every stored key (holds in every
reachable state). -/
def sharesFresh (s : MemStorage) : Prop :=
  ∀ p ∈ s.fileSharesMap, p.1 < s.currentIdFileShares

/-- The stat row `updateUserStats` starts from: the stored row, or the
zeroed row it lazily creates. -/
def statBase (s : MemStorage) (userId now : Nat) : Stat :=
  match getUserStats s userId with
  | some st => st
  | none => (createUserStats s userId now).1

theorem mapGet_mapSet_self {α : Type} (m : List (Nat × α)) (k : Nat) (v : α) :
    mapGet (mapSet m k v) k = some v := by
  induction m with
  | nil => simp [mapSet, mapGet]
  | cons p m ih =>
      by_cases hp : p.1 = k
      · simp [mapSet, mapGet, hp, List.find?]
      · by_cases hm : m.any (fun q => q.1 = k)
        · simpa [mapSet, mapGet, hp, hm, List.find?] using ih
        · simpa [mapSet, mapGet, hp, hm, List.find?] using ih

theorem find?_key_map_replace {α : Type} (m : List (Nat × α)) (k k2 : Nat)
    (v : α) (h : k ≠ k2) :
    (m.map (fun p => if p.1 = k then (k, v) else p)).find?
        (fun p => p.1 = k2) =
      m.find? (fun p => p.1 = k2) := by
  induction m with
  | nil => simp
  | cons p m ih =>
      by_cases hp : p.1 = k
      · have hp2 : ¬ p.1 = k2 := by rw [hp]; exact h
        simp [List.find?, hp, h, hp2, ih]
      · by_cases hq : p.1 = k2
        · have h2 : ¬ k2 = k := fun hc => h hc.symm
          simp [List.find?, hp, hq, h2]
        · simp [List.find?, hp, hq, ih]

theorem mapGet_mapSet_ne {α : Type} (m : List (Nat × α)) (k k2 : Nat) (v : α)
    (h : k ≠ k2) : mapGet (mapSet m k v) k2 = mapGet m k2 := by
  unfold mapSet mapGet
  by_cases hm : m.any (fun p => p.1 = k)
  · rw [if_pos hm, find?_key_map_replace m k k2 v h]
  · rw [if_neg hm, List.find?_append]
    have : List.find? (fun p => decide (p.1 = k2)) [(k, v)] = none := by
      simp [List.find?, h]
    rw [this, Option.or_none]

theorem mem_mapValues_mapSet {α : Type} (m : List (Nat × α)) (k : Nat)
    (v : α) : v ∈ mapValues (mapSet m k v) := by
  unfold mapSet mapValues
  by_cases hm : m.any (fun p => p.1 = k)
  · rw [if_pos hm]
    rcases List.any_eq_true.1 hm with ⟨p, hp, hpk⟩
    have : (k, v) ∈ m.map (fun p => if p.1 = k then (k, v) else p) := by
      refine List.mem_map.2 ⟨p, hp, ?_⟩
      simp [of_decide_eq_true hpk]
    exact List.mem_map.2 ⟨(k, v), this, rfl⟩
  · rw [if_neg hm]
    simp

theorem mapGet_mapDelete_self {α : Type} (m : List (Nat × α)) (k : Nat) :
    mapGet (mapDelete m k) k = none := by
  induction m with
  | nil => simp [mapDelete, mapGet]
  | cons p m ih =>
      by_cases hp : p.1 = k
      · simp [mapDelete, mapGet, hp] at ih ⊢
      · simp [mapDelete, mapGet, List.find?, hp] at ih ⊢

theorem foldl_mapDelete_eq_filter {α β : Type} (key : β → Nat) :
    ∀ (L : List β) (m : List (Nat × α)),
      L.foldl (fun m2 x => mapDelete m2 (key x)) m =
        m.filter (fun p => !(L.any (fun x => key x = p.1))) := by
  intro L
  induction L with
  | nil => intro m; simp
  | cons a L ih =>
      intro m
      rw [List.foldl_cons, ih]
      unfold mapDelete
      rw [List.filter_filter]
      apply List.filter_congr
      intro p _
      by_cases ha : key a = p.1
      · simp [ha]
      · have ha2 : ¬ p.1 = key a := fun hc => ha hc.symm
        simp [ha, ha2]

/-- Sample user: owner of the sample file. -/
def alice : User :=
  { id := 1, username := "alice", password := "pw1",
    email := "alice@example.com", createdAt := 0 }

/-- Sample user: grantee of the sample file. -/
def bob : User :=
  { id := 2, username := "bob", password := "pw2",
    email := "bob@example.com", createdAt := 0 }

/-- Sample user: no relation to the sample file. -/
def carol : User :=
  { id := 3, username := "carol", password := "pw3",
    email := "carol@example.com", createdAt := 0 }

/-- Sample file, owned by alice. -/
def vaultFile : File :=
  { id := 1, name := "doc.txt", size := 100, type := "text/plain",
    cid := "cid1", encryptionKey := "key1", ownerId := 1, uploadedAt := 0,
    status := "encrypted", owner := "alice" }

/-- Sample grant: bob may view alice's file. -/
def bobShare : FileShare :=
  { id := 1, fileId := 1, userId := 2, permission := "view", createdAt := 0 }

/-- Sample share link on alice's file, already expired at read time. -/
def oldLink : ShareLink :=
  { id := 1, fileId := 1, linkToken := "aabbccdd", requiresPassword := false,
    password := none, expiresAt := 5, createdAt := 0 }

/-- Sample audit transaction referencing the sample file. -/
def storeTx : Transaction :=
  { id := 1, txId := "tx_0", cid := "cid1", fileId := some 1,
    type := "store", status := "confirmed", timestamp := 0, metadata := "" }

/-- Alice's stat row in the sample state. -/
def aliceStat : Stat :=
  { id := 1, userId := 1, filesUploaded := 1, filesShared := 0,
    storageUsed := 100, downloads := 0, lastUpdated := 0 }

/-- A small concrete reachable store used to instantiate the theorems. -/
def sample : MemStorage :=
  { usersMap := [(1, alice), (2, bob), (3, carol)],
    filesMap := [(1, vaultFile)],
    fileSharesMap := [(1, bobShare)],
    shareLinksMap := [(1, oldLink)],
    transactionsMap := [(1, storeTx)],
    statsMap := [(1, aliceStat)],
    currentIdUsers := 4, currentIdFiles := 2, currentIdFileShares := 2,
    currentIdShareLinks := 2, currentIdTransactions := 2,
    currentIdStats := 2 }

/-- C1: `checkFileAccess F U` is false when no file row `F` exists; true
when the file's `ownerId` is `U`; and otherwise true exactly when some
FileShare row matches `(F, U)`, its permission level playing no role. -/
theorem checkFileAccess_policy (s : MemStorage) (F U : Nat) :
    (mapGet s.filesMap F = none → checkFileAccess s F U = false) ∧
    (∀ file, mapGet s.filesMap F = some file → file.ownerId = U →
      checkFileAccess s F U = true) ∧
    (∀ file, mapGet s.filesMap F = some file → file.ownerId ≠ U →
      (checkFileAccess s F U = true ↔
        ∃ share ∈ mapValues s.fileSharesMap,
          share.fileId = F ∧ share.userId = U)) := by
  refine ⟨?_, ?_, ?_⟩
  · intro h
    simp [checkFileAccess, h]
  · intro file h hown
    simp [checkFileAccess, h, hown]
  · intro file h hown
    simp [checkFileAccess, h, hown]

/-- C1 witness: in the sample store the grantee passes the gate through the
share row, and an unknown file id is denied for everyone. -/
theorem checkFileAccess_policy_witness :
    checkFileAccess sample 1 2 = true ∧ checkFileAccess sample 9 3 = false := by
  constructor
  · exact ((checkFileAccess_policy sample 1 2).2.2 vaultFile (by decide)
      (by decide)).2 ⟨bobShare, by decide, by decide, by decide⟩
  · exact (checkFileAccess_policy sample 9 3).1 (by decide)

/-- C2: once `createFileShare` has inserted a grant for `(F, U)` — whatever
the permission level — `checkFileAccess F U` on the resulting state is
true, provided the file row `F` exists. -/
theorem checkFileAccess_after_createFileShare (s : MemStorage) (F U : Nat)
    (perm : String) (now : Nat) (file : File)
    (hfile : mapGet s.filesMap F = some file) :
    checkFileAccess
      (createFileShare s
        { fileId := F, userId := U, permission := perm } now).2 F U = true := by
  have hmem := mem_mapValues_mapSet s.fileSharesMap s.currentIdFileShares
      ({ id := s.currentIdFileShares, fileId := F, userId := U,
         permission := perm, createdAt := now } : FileShare)
  by_cases hown : file.ownerId = U
  · simp [createFileShare, checkFileAccess, hfile, hown]
  · simp [createFileShare, checkFileAccess, hfile, hown]
    exact ⟨_, hmem, rfl, rfl⟩

/-- C2 witness: sharing alice's file with carol (permission "view") makes
the gate pass for carol. -/
theorem checkFileAccess_after_createFileShare_witness :
    checkFileAccess
      (createFileShare sample
        { fileId := 1, userId := 3, permission := "view" } 10).2 1 3 = true :=
  checkFileAccess_after_createFileShare sample 1 3 ("view") 10 vaultFile
    (by decide)

theorem foldlDelete_by_field {β : Type} (idOf fidOf : β → Nat)
    (m : List (Nat × β)) (F : Nat)
    (hid : ∀ p ∈ m, idOf p.2 = p.1) (hnd : (m.map Prod.fst).Nodup) :
    ((mapValues m).filter (fun x => fidOf x = F)).foldl
        (fun m2 x => mapDelete m2 (idOf x)) m =
      m.filter (fun p => fidOf p.2 ≠ F) := by
  rw [foldl_mapDelete_eq_filter idOf]
  apply List.filter_congr
  intro p hp
  by_cases hF : fidOf p.2 = F
  · have hmem : p.2 ∈ (mapValues m).filter (fun x => fidOf x = F) :=
      List.mem_filter.2 ⟨List.mem_map.2 ⟨p, hp, rfl⟩, by simp [hF]⟩
    have hany : ((mapValues m).filter (fun x => fidOf x = F)).any
        (fun x => idOf x = p.1) = true :=
      List.any_eq_true.2 ⟨p.2, hmem, by simp [hid p hp]⟩
    simp [hany, hF]
  · have hany : ((mapValues m).filter (fun x => fidOf x = F)).any
        (fun x => idOf x = p.1) = false := by
      rw [Bool.eq_false_iff]
      intro hc
      rcases List.any_eq_true.1 hc with ⟨x, hxmem, hxid⟩
      rcases List.mem_filter.1 hxmem with ⟨hxval, hxfid⟩
      rcases List.mem_map.1 hxval with ⟨q, hq, hq2⟩
      have hq1 : q.1 = p.1 := by
        rw [← hid q hq, hq2]
        exact of_decide_eq_true hxid
      have hqp : q = p := List.inj_on_of_nodup_map hnd hq hp hq1
      apply hF
      rw [← hq2, hqp] at hxfid
      exact of_decide_eq_true hxfid
    simp [hany, hF]

/-- C3: `deleteFile F` removes the file row `F`, removes exactly the
FileShare rows and ShareLink rows whose `fileId` is `F`, and leaves the
transactions (and every other table) untouched, so transactions
referencing `F` stay queryable as dangling rows. -/
theorem deleteFile_spec (s : MemStorage) (F : Nat)
    (hs : sharesWF s) (hl : linksWF s) :
    mapGet (deleteFile s F).filesMap F = none ∧
    (deleteFile s F).filesMap = s.filesMap.filter (fun p => p.1 ≠ F) ∧
    (deleteFile s F).fileSharesMap =
      s.fileSharesMap.filter (fun p => p.2.fileId ≠ F) ∧
    (deleteFile s F).shareLinksMap =
      s.shareLinksMap.filter (fun p => p.2.fileId ≠ F) ∧
    (deleteFile s F).transactionsMap = s.transactionsMap ∧
    (deleteFile s F).statsMap = s.statsMap ∧
    (deleteFile s F).usersMap = s.usersMap := by
  refine ⟨mapGet_mapDelete_self s.filesMap F, rfl, ?_, ?_, rfl, rfl, rfl⟩
  · exact foldlDelete_by_field FileShare.id FileShare.fileId
      s.fileSharesMap F hs.1 hs.2
  · exact foldlDelete_by_field ShareLink.id ShareLink.fileId
      s.shareLinksMap F hl.1 hl.2

/-- C3 witness: deleting the sample file empties the share and link tables
(their only rows referenced it) and keeps the audit transaction. -/
theorem deleteFile_spec_witness :
    mapGet (deleteFile sample 1).filesMap 1 = none ∧
    (deleteFile sample 1).fileSharesMap = [] ∧
    (deleteFile sample 1).shareLinksMap = [] ∧
    (deleteFile sample 1).transactionsMap = [(1, storeTx)] := by
  have h := deleteFile_spec sample 1 ⟨by decide, by decide⟩
      ⟨by decide, by decide⟩
  exact ⟨h.1, h.2.2.1.trans (by decide), h.2.2.2.1.trans (by decide),
    h.2.2.2.2.1⟩

/-- C4: `updateUserStats` starts from the stored stat row or a lazily
created zeroed one, adds the signed deltas, clamps `filesUploaded`,
`filesShared` and `storageUsed` at zero (so `storageUsed` can never go
negative, whatever the delta), leaves `downloads` unclamped, stamps
`lastUpdated` with the current time, and stores the row back under the
user id. -/
theorem updateUserStats_spec (s : MemStorage) (uid : Nat) (upd : StatUpdates)
    (now : Nat) :
    (updateUserStats s uid upd now).1.filesUploaded =
      max 0 ((statBase s uid now).filesUploaded + upd.filesUploaded.getD 0) ∧
    (updateUserStats s uid upd now).1.filesShared =
      max 0 ((statBase s uid now).filesShared + upd.filesShared.getD 0) ∧
    (updateUserStats s uid upd now).1.storageUsed =
      max 0 ((statBase s uid now).storageUsed + upd.storageUsed.getD 0) ∧
    (updateUserStats s uid upd now).1.downloads =
      (statBase s uid now).downloads + upd.downloads.getD 0 ∧
    (updateUserStats s uid upd now).1.lastUpdated = now ∧
    (0 : Int) ≤ (updateUserStats s uid upd now).1.storageUsed ∧
    mapGet (updateUserStats s uid upd now).2.statsMap uid =
      some (updateUserStats s uid upd now).1 ∧
    (getUserStats s uid = none →
      (statBase s uid now).filesUploaded = 0 ∧
      (statBase s uid now).filesShared = 0 ∧
      (statBase s uid now).storageUsed = 0 ∧
      (statBase s uid now).downloads = 0) := by
  cases h : getUserStats s uid with
  | some st =>
      refine ⟨?_, ?_, ?_, ?_, ?_, ?_, ?_, ?_⟩ <;>
        simp [updateUserStats, statBase, h, mapGet_mapSet_self, le_max_left]
  | none =>
      refine ⟨?_, ?_, ?_, ?_, ?_, ?_, ?_, ?_⟩ <;>
        simp [updateUserStats, statBase, createUserStats, h,
          mapGet_mapSet_self, le_max_left]

/-- C4 witness: a storage delta of -1000 against a stored 100 clamps to 0,
and for a user with no stat row the base row is all zeroes. -/
theorem updateUserStats_spec_witness :
    (updateUserStats sample 1
      { storageUsed := some (-1000) } 7).1.storageUsed = 0 ∧
    (statBase sample 2 7).downloads = 0 := by
  constructor
  · exact ((updateUserStats_spec sample 1
      { storageUsed := some (-1000) } 7).2.2.1).trans (by decide)
  · exact ((updateUserStats_spec sample 2 {} 7).2.2.2.2.2.2.2
      (by decide)).2.2.2

theorem createFileShare_fresh_append (s : MemStorage) (d : InsertFileShare)
    (now : Nat) (hfresh : sharesFresh s) :
    (createFileShare s d now).2.fileSharesMap =
      s.fileSharesMap ++ [(s.currentIdFileShares, (createFileShare s d now).1)] := by
  have hna : s.fileSharesMap.any
      (fun p => p.1 = s.currentIdFileShares) = false := by
    rw [Bool.eq_false_iff]
    intro hc
    rcases List.any_eq_true.1 hc with ⟨p, hp, hpk⟩
    have hlt := hfresh p hp
    rw [of_decide_eq_true hpk] at hlt
    exact lt_irrefl _ hlt
  simp [createFileShare, mapSet, hna]

theorem createFileShare_preserves (s : MemStorage) (d : InsertFileShare)
    (now : Nat) (hfresh : sharesFresh s) (hwf : sharesWF s) :
    sharesWF (createFileShare s d now).2 ∧
      sharesFresh (createFileShare s d now).2 := by
  have happ := createFileShare_fresh_append s d now hfresh
  have hnotmem : s.currentIdFileShares ∉ s.fileSharesMap.map Prod.fst := by
    intro hc
    rcases List.mem_map.1 hc with ⟨p, hp, hp1⟩
    have hlt := hfresh p hp
    rw [hp1] at hlt
    exact lt_irrefl _ hlt
  refine ⟨⟨?_, ?_⟩, ?_⟩
  · intro p hp
    rw [happ] at hp
    rcases List.mem_append.1 hp with h1 | h2
    · exact hwf.1 p h1
    · rw [List.mem_singleton.1 h2]
      rfl
  · rw [happ, List.map_append, List.nodup_append]
    refine ⟨hwf.2, by simp, ?_⟩
    intro a ha hb
    simp at hb
    rw [hb] at ha
    exact hnotmem ha
  · intro p hp
    rw [happ] at hp
    have hcur : (createFileShare s d now).2.currentIdFileShares =
        s.currentIdFileShares + 1 := rfl
    rw [hcur]
    rcases List.mem_append.1 hp with h1 | h2
    · exact Nat.lt_trans (hfresh p h1) (Nat.lt_succ_self _)
    · rw [List.mem_singleton.1 h2]
      exact Nat.lt_succ_self _

theorem grantCount_createFileShare (s : MemStorage) (F U : Nat)
    (perm : String) (now : Nat) (hfresh : sharesFresh s) :
    grantCount (createFileShare s
        { fileId := F, userId := U, permission := perm } now).2 F U =
      grantCount s F U + 1 := by
  rw [grantCount, grantCount, mapValues, mapValues,
    createFileShare_fresh_append s _ now hfresh, List.map_append,
    List.filter_append, List.length_append]
  simp [createFileShare]

theorem pair_ids_nodup (s : MemStorage) (F U : Nat) (hwf : sharesWF s) :
    (((mapValues s.fileSharesMap).filter
        (fun share => share.fileId = F && share.userId = U)).map
      FileShare.id).Nodup := by
  have hkeys : (mapValues s.fileSharesMap).map FileShare.id =
      s.fileSharesMap.map Prod.fst := by
    rw [mapValues, List.map_map]
    exact List.map_congr_left (fun p hp => hwf.1 p hp)
  have hnd : ((mapValues s.fileSharesMap).map FileShare.id).Nodup := by
    rw [hkeys]
    exact hwf.2
  exact List.Nodup.sublist
    (List.Sublist.map FileShare.id (List.filter_sublist _)) hnd

/-- C5: `createFileShare` never checks for an existing grant: starting from
a well-formed store, `n` calls for the same `(F, U)` pair all succeed and
leave `n` more grant rows for that pair than before, all with distinct
ids, and well-formedness is preserved. -/
theorem repeatCreateFileShare_spec (s : MemStorage) (F U : Nat)
    (perm : String) (now : Nat) (n : Nat)
    (hfresh : sharesFresh s) (hwf : sharesWF s) :
    grantCount (repeatCreateFileShare s
        { fileId := F, userId := U, permission := perm } now n) F U =
      grantCount s F U + n ∧
    sharesWF (repeatCreateFileShare s
        { fileId := F, userId := U, permission := perm } now n) ∧
    sharesFresh (repeatCreateFileShare s
        { fileId := F, userId := U, permission := perm } now n) ∧
    (((mapValues (repeatCreateFileShare s
          { fileId := F, userId := U, permission := perm } now n).fileSharesMap).filter
        (fun share => share.fileId = F && share.userId = U)).map
      FileShare.id).Nodup := by
  induction n with
  | zero => exact ⟨rfl, hwf, hfresh, pair_ids_nodup s F U hwf⟩
  | succ n ih =>
      rcases ih with ⟨hcount, hwf2, hfresh2, _⟩
      have hpres := createFileShare_preserves _
        { fileId := F, userId := U, permission := perm } now hfresh2 hwf2
      refine ⟨?_, hpres.1, hpres.2, pair_ids_nodup _ F U hpres.1⟩
      rw [repeatCreateFileShare,
        grantCount_createFileShare _ F U perm now hfresh2, hcount]
      omega

/-- C5 witness: two further grants to bob, who already holds one, leave
three grant rows for the pair. -/
theorem repeatCreateFileShare_spec_witness :
    grantCount (repeatCreateFileShare sample
      { fileId := 1, userId := 2, permission := "view" } 5 2) 1 2 = 3 := by
  have hfresh : sharesFresh sample := by
    intro p hp
    rw [List.mem_singleton.1 hp]
    decide
  have h := repeatCreateFileShare_spec sample 1 2 ("view") 5 2 hfresh
    ⟨by decide, by decide⟩
  exact h.1.trans (by decide)

theorem updateUserStats_frame (s : MemStorage) (uid : Nat)
    (upd : StatUpdates) (now : Nat) :
    (updateUserStats s uid upd now).2.fileSharesMap = s.fileSharesMap ∧
    (updateUserStats s uid upd now).2.filesMap = s.filesMap ∧
    (updateUserStats s uid upd now).2.shareLinksMap = s.shareLinksMap ∧
    (updateUserStats s uid upd now).2.usersMap = s.usersMap ∧
    (updateUserStats s uid upd now).2.transactionsMap = s.transactionsMap := by
  cases h : getUserStats s uid <;>
    simp [updateUserStats, createUserStats, h]

theorem updateUserStats_filesShared (s : MemStorage) (uid : Nat)
    (upd : StatUpdates) (now : Nat) :
    (mapGet (updateUserStats s uid upd now).2.statsMap uid).map
        Stat.filesShared =
      some (max 0 ((statBase s uid now).filesShared +
        upd.filesShared.getD 0)) := by
  cases h : getUserStats s uid <;>
    simp [updateUserStats, statBase, createUserStats, h, mapGet_mapSet_self]

theorem updateUserStats_downloads (s : MemStorage) (uid : Nat)
    (upd : StatUpdates) (now : Nat) :
    (mapGet (updateUserStats s uid upd now).2.statsMap uid).map
        Stat.downloads =
      some ((statBase s uid now).downloads + upd.downloads.getD 0) := by
  cases h : getUserStats s uid <;>
    simp [updateUserStats, statBase, createUserStats, h, mapGet_mapSet_self]

theorem updateUserStats_other (s : MemStorage) (uid uid2 : Nat)
    (upd : StatUpdates) (now : Nat) (h : uid ≠ uid2) :
    mapGet (updateUserStats s uid upd now).2.statsMap uid2 =
      mapGet s.statsMap uid2 := by
  cases hs : getUserStats s uid <;>
    simp [updateUserStats, createUserStats, hs,
      mapGet_mapSet_ne _ _ _ _ h]

/-- The sixteen lowercase hex digit characters, 0-9 then a-f. -/
def hexDigits : List Char :=
  (List.range 10).map (fun n => Char.ofNat (48 + n)) ++
    (List.range 6).map (fun n => Char.ofNat (97 + n))

theorem hexDigitChar_mem : ∀ n, n < 16 → hexDigitChar n ∈ hexDigits := by
  decide

theorem bytesToHex_length (bs : List Nat) :
    (bytesToHex bs).length = 2 * bs.length := by
  show (bs.flatMap
    (fun b => [hexDigitChar (b / 16), hexDigitChar (b % 16)])).length =
      2 * bs.length
  induction bs with
  | nil => rfl
  | cons b bs ih => simp [List.flatMap_cons, ih]; omega

theorem bytesToHex_chars (bs : List Nat) (hb : ∀ b ∈ bs, b < 256) :
    ∀ c ∈ (bytesToHex bs).toList, c ∈ hexDigits := by
  intro c hc
  have hc2 : c ∈ bs.flatMap
      (fun b => [hexDigitChar (b / 16), hexDigitChar (b % 16)]) := hc
  rcases List.mem_flatMap.1 hc2 with ⟨b, hbmem, hcmem⟩
  have hq : b / 16 < 16 := by
    have := hb b hbmem
    omega
  have hr : b % 16 < 16 := Nat.mod_lt _ (by omega)
  simp only [List.mem_cons, List.mem_singleton] at hcmem
  rcases hcmem with h | h | h
  · rw [h]; exact hexDigitChar_mem _ hq
  · rw [h]; exact hexDigitChar_mem _ hr
  · cases h

/-- C6: a successful share-link issuance stores a link whose token is the
hex encoding of the 16 bytes drawn from the CSPRNG (32 hex characters,
128 bits), whose expiry is the issuance time plus exactly 7 days, and
whose plaintext password is present iff `requirePassword` was set. -/
theorem createShareLinkHandler_spec (s : MemStorage) (rid fid : Nat)
    (reqPw : Bool) (pw : String) (bytes : List Nat) (now : Nat) (file : File)
    (hfile : getFile s fid = some file) (hown : file.ownerId = rid)
    (hlen : bytes.length = 16) (hbytes : ∀ b ∈ bytes, b < 256) :
    ∃ link,
      (createShareLinkHandler s rid fid reqPw pw bytes now).1 =
        .created link ∧
      link.linkToken = bytesToHex bytes ∧
      link.linkToken.length = 32 ∧
      (∀ c ∈ link.linkToken.toList, c ∈ hexDigits) ∧
      link.expiresAt = now + 7 * msPerDay ∧
      link.requiresPassword = reqPw ∧
      link.password = (if reqPw then some pw else none) ∧
      link ∈ mapValues
        (createShareLinkHandler s rid fid reqPw pw bytes now).2.shareLinksMap := by
  refine ⟨{ id := s.currentIdShareLinks, fileId := fid,
            linkToken := bytesToHex bytes, requiresPassword := reqPw,
            password := if reqPw then some pw else none,
            expiresAt := now + 7 * msPerDay, createdAt := now },
    ?_, rfl, ?_, ?_, rfl, rfl, rfl, ?_⟩
  · simp [createShareLinkHandler, hfile, hown, createShareLink]
  · show (bytesToHex bytes).length = 32
    rw [bytesToHex_length, hlen]
  · show ∀ c ∈ (bytesToHex bytes).toList, c ∈ hexDigits
    intro c hc
    exact bytesToHex_chars bytes hbytes c hc
  · simp [createShareLinkHandler, hfile, hown, createShareLink]
    exact mem_mapValues_mapSet _ _ _

/-- Sixteen sample CSPRNG output bytes. -/
def sampleBytes : List Nat :=
  [0, 1, 2, 3, 4, 5, 6, 7, 8, 9, 10, 11, 12, 13, 14, 15]

/-- C6 witness: alice issues a password-protected link on her file; the
stored token has 32 hex characters and the expiry sits 7 days out. -/
theorem createShareLinkHandler_spec_witness :
    ∃ link,
      (createShareLinkHandler sample 1 1 true ("hunter2") sampleBytes 100).1 =
        .created link ∧
      link.linkToken.length = 32 ∧
      link.expiresAt = 100 + 7 * msPerDay ∧
      link.password = some ("hunter2") := by
  rcases createShareLinkHandler_spec sample 1 1 true ("hunter2") sampleBytes
      100 vaultFile (by decide) (by decide) (by decide) (by decide) with
    ⟨link, h1, _, h3, _, h5, _, h7, _⟩
  exact ⟨link, h1, h3, h5, by rw [h7]; rfl⟩

/-- C7: `getShareLink` is a pure token lookup: whenever some stored link
carries the token it returns a link with that token, whatever its
`expiresAt` (there is no read-time parameter to compare expiry against),
and whatever it returns is a stored link with that token. -/
theorem getShareLink_spec (s : MemStorage) (token : String) :
    (∀ link ∈ mapValues s.shareLinksMap, link.linkToken = token →
      ∃ l, getShareLink s token = some l ∧ l.linkToken = token ∧
        l ∈ mapValues s.shareLinksMap) ∧
    (∀ l, getShareLink s token = some l →
      l.linkToken = token ∧ l ∈ mapValues s.shareLinksMap) := by
  constructor
  · intro link hmem htok
    have hsome : ((mapValues s.shareLinksMap).find?
        (fun l2 => l2.linkToken = token)).isSome := by
      rw [List.find?_isSome]
      exact ⟨link, hmem, by simp [htok]⟩
    rcases Option.isSome_iff_exists.1 hsome with ⟨l, hl⟩
    have hp := List.find?_some hl
    simp at hp
    exact ⟨l, hl, hp, List.mem_of_find?_eq_some hl⟩
  · intro l hl
    have hl2 : (mapValues s.shareLinksMap).find?
        (fun l2 => l2.linkToken = token) = some l := hl
    have hp := List.find?_some hl2
    simp at hp
    exact ⟨hp, List.mem_of_find?_eq_some hl2⟩

/-- C7 witness: the sample link is long expired (`expiresAt = 5`), yet the
token lookup still returns it. -/
theorem getShareLink_spec_witness :
    ∃ l, getShareLink sample ("aabbccdd") = some l ∧
      l.linkToken = ("aabbccdd") ∧ l.expiresAt = 5 := by
  rcases (getShareLink_spec sample ("aabbccdd")).1 oldLink (by decide)
      (by decide) with ⟨l, h1, h2, _⟩
  have hl : l = oldLink := by
    have hcalc : getShareLink sample ("aabbccdd") = some oldLink := by decide
    rw [hcalc] at h1
    exact (Option.some_inj.1 h1).symm
  exact ⟨l, h1, h2, by rw [hl]; rfl⟩

/-- C8: both grant routes reject a non-owner with access-denied and an
unresolved recipient with not-found, each time leaving the store
untouched; and once email and id resolve to the same recipient the two
routes are the same function — on success they insert the grant and bump
the granter's `filesShared` by one. -/
theorem shareHandlers_spec (s : MemStorage) (rid fid recId : Nat)
    (email perm : String) (now : Nat) :
    (∀ file, getFile s fid = some file → file.ownerId ≠ rid →
      shareByEmail s rid fid email perm now = (.accessDenied, s) ∧
      shareById s rid fid recId perm now = (.accessDenied, s)) ∧
    (∀ file, getFile s fid = some file → file.ownerId = rid →
      (getUserByEmail s email = none →
        shareByEmail s rid fid email perm now = (.recipientNotFound, s)) ∧
      (getUser s recId = none →
        shareById s rid fid recId perm now = (.recipientNotFound, s))) ∧
    (∀ u, getUserByEmail s email = some u → getUser s recId = some u →
      shareByEmail s rid fid email perm now =
        shareById s rid fid recId perm now) ∧
    (∀ file u, getFile s fid = some file → file.ownerId = rid →
      getUserByEmail s email = some u →
      0 ≤ (statBase s rid now).filesShared →
      ∃ share,
        (shareByEmail s rid fid email perm now).1 = .created share ∧
        share.fileId = fid ∧ share.userId = u.id ∧
        share.permission = perm ∧
        share ∈ mapValues
          (shareByEmail s rid fid email perm now).2.fileSharesMap ∧
        (mapGet (shareByEmail s rid fid email perm now).2.statsMap rid).map
            Stat.filesShared =
          some ((statBase s rid now).filesShared + 1)) := by
  refine ⟨?_, ?_, ?_, ?_⟩
  · intro file hfile hown
    constructor <;> simp [shareByEmail, shareById, hfile, hown]
  · intro file hfile hown
    constructor
    · intro hu
      simp [shareByEmail, hfile, hown, hu]
    · intro hu
      simp [shareById, hfile, hown, hu]
  · intro u hue hui
    cases hfile : getFile s fid with
    | none => simp [shareByEmail, shareById, hfile]
    | some file =>
        by_cases hown : file.ownerId ≠ rid
        · simp [shareByEmail, shareById, hfile, hown]
        · simp [shareByEmail, shareById, hfile, hown, hue, hui]
  · intro file u hfile hown hue hbase
    have hno : ¬ file.ownerId ≠ rid := fun hc => hc hown
    refine ⟨(createFileShare s
        { fileId := fid, userId := u.id, permission := perm } now).1,
      ?_, rfl, rfl, rfl, ?_, ?_⟩
    · simp [shareByEmail, hfile, hno, hue]
    · have hstate : (shareByEmail s rid fid email perm now).2 =
          (updateUserStats (createFileShare s
            { fileId := fid, userId := u.id, permission := perm } now).2
            rid { filesShared := some 1 } now).2 := by
        simp [shareByEmail, hfile, hno, hue]
      rw [hstate,
        (updateUserStats_frame _ rid { filesShared := some 1 } now).1]
      simp [createFileShare]
      exact mem_mapValues_mapSet _ _ _
    · have hstate : (shareByEmail s rid fid email perm now).2 =
          (updateUserStats (createFileShare s
            { fileId := fid, userId := u.id, permission := perm } now).2
            rid { filesShared := some 1 } now).2 := by
        simp [shareByEmail, hfile, hno, hue]
      rw [hstate, updateUserStats_filesShared]
      have hsb : statBase (createFileShare s
          { fileId := fid, userId := u.id, permission := perm } now).2 rid
            now = statBase s rid now := rfl
      rw [hsb]
      have : max 0 ((statBase s rid now).filesShared + (1 : Int)) =
          (statBase s rid now).filesShared + 1 := by omega
      simp [this]

/-- C8 witness: bob (not the owner) is denied with no state change, and
alice sharing to carol by email gets a grant row created. -/
theorem shareHandlers_spec_witness :
    shareByEmail sample 2 1 ("carol@example.com") ("view") 9 =
      (.accessDenied, sample) ∧
    ∃ share,
      (shareByEmail sample 1 1 ("carol@example.com") ("view") 9).1 =
        .created share ∧ share.userId = 3 := by
  constructor
  · exact ((shareHandlers_spec sample 2 1 3
      ("carol@example.com") ("view") 9).1 vaultFile (by decide)
      (by decide)).1
  · rcases (shareHandlers_spec sample 1 1 3
        ("carol@example.com") ("view") 9).2.2.2 vaultFile carol (by decide)
        (by decide) (by decide) (by decide) with ⟨share, h1, _, h3, _⟩
    exact ⟨share, h1, h3⟩

/-- C9: a successful download by a grantee bumps the `downloads` counter
of the file OWNER's stat row by one and leaves the requesting grantee's
stat row exactly as it was. -/
theorem downloadFile_spec (s : MemStorage) (retrieve : String → String)
    (uid fid now : Nat) (file : File)
    (hfile : getFile s fid = some file)
    (hacc : checkFileAccess s file.id uid = true)
    (hneq : uid ≠ file.ownerId) :
    (mapGet (downloadFile s retrieve uid fid now).2.statsMap
        file.ownerId).map Stat.downloads =
      some ((statBase s file.ownerId now).downloads + 1) ∧
    mapGet (downloadFile s retrieve uid fid now).2.statsMap uid =
      mapGet s.statsMap uid := by
  have hstate : (downloadFile s retrieve uid fid now).2.statsMap =
      (updateUserStats s file.ownerId
        { downloads := some 1 } now).2.statsMap := by
    simp [downloadFile, hfile, hacc, logTransaction]
  constructor
  · rw [hstate]
    have h := updateUserStats_downloads s file.ownerId
      { downloads := some 1 } now
    simpa using h
  · rw [hstate]
    exact updateUserStats_other s file.ownerId uid
      { downloads := some 1 } now (fun hc => hneq hc.symm)

/-- C9 witness: bob downloads alice's file; alice's `downloads` becomes 1
and bob still has no stat row at all. -/
theorem downloadFile_spec_witness :
    (mapGet (downloadFile sample (fun _ => ("blob")) 2 1 9).2.statsMap
        1).map Stat.downloads = some 1 ∧
    mapGet (downloadFile sample (fun _ => ("blob")) 2 1 9).2.statsMap 2 =
      none := by
  have h := downloadFile_spec sample (fun _ => ("blob")) 2 1 9 vaultFile
    (by decide) (by decide) (by decide)
  exact ⟨h.1.trans (by decide), h.2.trans (by decide)⟩

/-- C10: when a user has no stat row, `GET /api/stats` answers 404 and the
read creates nothing: the state is returned untouched and the row is
still absent afterwards. -/
theorem getStatsHandler_spec (s : MemStorage) (uid : Nat)
    (h : getUserStats s uid = none) :
    getStatsHandler s uid = (.notFound, s) ∧
    getUserStats (getStatsHandler s uid).2 uid = none := by
  constructor <;> simp [getStatsHandler, h]

/-- C10 witness: bob has never triggered a stat adjustment, so his stats
read is a 404 on the unchanged sample store. -/
theorem getStatsHandler_spec_witness :
    getStatsHandler sample 2 = (.notFound, sample) :=
  (getStatsHandler_spec sample 2 (by decide)).1

end BlockShare
